import Mathlib

/-!
Verification of the Game-of-Life scripts in this repository.

The two scripts (`script.js`, here `part_000`, and `evaluate/evaluate.js`)
hold a module-level `grid` together with module-level constants
`numRows = grid.length` and `numCols = grid[0].length` computed once at load
time.  The core functions close over those constants, so the embedding takes
`numRows` and `numCols` as explicit parameters.

JavaScript semantics that matter here:
- an array slot holds a number or `undefined` (a hole), modelled as `Option Int`;
- reading `a[i]` out of range yields `undefined`, and indexing into
  `undefined` throws, modelled with `Except Unit`;
- assigning `a[i] = v` past the end pads the array with holes.
-/

/-- A JavaScript array slot: `some v` is the number `v`, `none` is `undefined`
(an out-of-range read or a hole). -/
abbrev Cell := Option Int

/-- A grid as the scripts hold it: an array of rows of cell slots. -/
abbrev Grid := List (List Cell)

/-- JavaScript element read `l[i]` at a (possibly negative) integer index:
negative and out-of-range indices read as `undefined` (`none`). -/
def getIdx? {α : Type} (l : List α) (i : Int) : Option α :=
  if 0 ≤ i then l[i.toNat]? else none

/-- The eight relative neighbor offsets, in the order both scripts list them. -/
def directions : List (Int × Int) :=
  [(-1, -1), (-1, 0), (-1, 1), (0, -1), (0, 1), (1, -1), (1, 0), (1, 1)]

/-- One iteration of the `directions.forEach` body of `countLiveNeighbors`:
the guarded test `newRow >= 0 && newRow < numRows && newCol >= 0 &&
newCol < numCols && grid[newRow][newCol] === 1`, returning the contribution
to the running count.  When the bounds tests pass but `grid[newRow]` is
`undefined` (the module constants exceed the actual array), the inner
indexing throws. -/
def neighborContrib (numRows numCols : Nat) (grid : Grid) (newRow newCol : Int) :
    Except Unit Nat :=
  if 0 ≤ newRow ∧ newRow < (numRows : Int) ∧ 0 ≤ newCol ∧ newCol < (numCols : Int) then
    match getIdx? grid newRow with
    | none => .error ()
    | some rowArr => .ok (if (getIdx? rowArr newCol).join = some 1 then 1 else 0)
  else
    .ok 0

/-- `countLiveNeighbors(grid, row, col)` from `part_000`: folds the eight
direction offsets, accumulating `liveNeighbors`. -/
def countLiveNeighbors (numRows numCols : Nat) (grid : Grid) (row col : Int) :
    Except Unit Nat :=
  directions.foldlM
    (fun liveNeighbors d => do
      let contrib ← neighborContrib numRows numCols grid (row + d.1) (col + d.2)
      pure (liveNeighbors + contrib))
    0

/-- The read `grid[row][col]` with the non-negative loop indices of the
stepper: throws when `grid[row]` is `undefined`, otherwise yields the slot
value (`undefined` when `col` is out of range of that row). -/
def readCell (grid : Grid) (row col : Nat) : Except Unit Cell :=
  match grid[row]? with
  | none => .error ()
  | some rowArr => .ok (rowArr[col]?).join

/-- JavaScript assignment `rowArr[col] = v` on an array value: in range it
replaces the slot, past the end it pads with holes and extends. -/
def jsSetRow (rowArr : List Cell) (col : Nat) (v : Int) : List Cell :=
  if col < rowArr.length then rowArr.set col (some v)
  else rowArr ++ List.replicate (col - rowArr.length) none ++ [some v]

/-- Replace row `row` of a grid by `f` applied to it; other rows untouched. -/
def modifyRow (g : Grid) (row : Nat) (f : List Cell → List Cell) : Grid :=
  match g, row with
  | [], _ => []
  | r :: rs, 0 => f r :: rs
  | r :: rs, n + 1 => r :: modifyRow rs n f

/-- JavaScript assignment `nextGrid[row][col] = v`: throws when
`nextGrid[row]` is `undefined`, otherwise updates that row. -/
def writeCell (g : Grid) (row col : Nat) (v : Int) : Except Unit Grid :=
  if row < g.length then .ok (modifyRow g row (fun rowArr => jsSetRow rowArr col v))
  else .error ()

/-- `grid.map(arr => [...arr])`: a fresh array of fresh rows holding the same
slot values. -/
def copyGrid (g : Grid) : Grid := g.map (fun arr => arr.map (fun x => x))

/-- The two buffers in scope inside the stepper's loop: the source snapshot
`grid` (the function's parameter, only read) and `nextGrid` (only written). -/
structure GolState where
  grid : Grid
  nextGrid : Grid
deriving DecidableEq, Repr

/-- The body of the stepper's inner loop in `part_000`'s `gameOfLife`:
count live neighbors from the source snapshot, read the source cell, and
apply the rule branches, writing only into `nextGrid`. -/
def stepCell (numRows numCols : Nat) (s : GolState) (row col : Nat) :
    Except Unit GolState := do
  let liveNeighbors ← countLiveNeighbors numRows numCols s.grid (row : Int) (col : Int)
  let cell ← readCell s.grid row col
  if cell = some 1 then
    if liveNeighbors < 2 ∨ liveNeighbors > 3 then do
      let b ← writeCell s.nextGrid row col 0
      pure ⟨s.grid, b⟩
    else if liveNeighbors = 2 ∨ liveNeighbors = 3 then do
      let b ← writeCell s.nextGrid row col 1
      pure ⟨s.grid, b⟩
    else
      pure s
  else
    if liveNeighbors = 3 then do
      let b ← writeCell s.nextGrid row col 1
      pure ⟨s.grid, b⟩
    else
      pure s

/-- The nested `for` loops of `gameOfLife`, threading the two buffers. -/
def golLoop (numRows numCols : Nat) (s : GolState) : Except Unit GolState :=
  (List.range numRows).foldlM
    (fun s row =>
      (List.range numCols).foldlM (fun s col => stepCell numRows numCols s row col) s)
    s

/-- `gameOfLife(grid)` from `part_000`: copy the grid, run the loops reading
the parameter and writing the copy, return the copy. -/
def gameOfLife (numRows numCols : Nat) (grid : Grid) : Except Unit Grid :=
  (golLoop numRows numCols ⟨grid, copyGrid grid⟩).map (fun s => s.nextGrid)

/-- `grid[0].length` as the scripts compute `numCols`: throws on an empty
grid (`grid[0]` is `undefined`). -/
def numColsOf : Grid → Except Unit Nat
  | [] => .error ()
  | rowArr :: _ => .ok rowArr.length

/-- `gameOfLife` invoked the way the module wires it: with `numRows` and
`numCols` derived from the grid itself (`grid.length`, `grid[0].length`). -/
def nextGeneration (grid : Grid) : Except Unit Grid := do
  let numCols ← numColsOf grid
  gameOfLife grid.length numCols grid

namespace Evaluate

/-- `countLiveNeighbors(row, col)` from `evaluate/evaluate.js`: identical
logic, with the module-level `grid` passed explicitly. -/
def countLiveNeighbors (numRows numCols : Nat) (grid : Grid) (row col : Int) :
    Except Unit Nat :=
  directions.foldlM
    (fun liveNeighbors d => do
      let contrib ← neighborContrib numRows numCols grid (row + d.1) (col + d.2)
      pure (liveNeighbors + contrib))
    0

/-- The body of the inner loop of `evaluate.js`'s `computeNextGeneration`:
as in `part_000` except that a surviving live cell is left as the copied
value instead of being rewritten to 1. -/
def stepCell (numRows numCols : Nat) (s : GolState) (row col : Nat) :
    Except Unit GolState := do
  let liveNeighbors ← countLiveNeighbors numRows numCols s.grid (row : Int) (col : Int)
  let cell ← readCell s.grid row col
  if cell = some 1 then
    if liveNeighbors < 2 ∨ liveNeighbors > 3 then do
      let b ← writeCell s.nextGrid row col 0
      pure ⟨s.grid, b⟩
    else
      pure s
  else
    if liveNeighbors = 3 then do
      let b ← writeCell s.nextGrid row col 1
      pure ⟨s.grid, b⟩
    else
      pure s

/-- `computeNextGeneration()` from `evaluate.js`, restricted to its grid
computation: the value it stores back into the module-level `grid`. -/
def computeNextGeneration (numRows numCols : Nat) (grid : Grid) : Except Unit Grid :=
  ((List.range numRows).foldlM
    (fun s row =>
      (List.range numCols).foldlM (fun s col => stepCell numRows numCols s row col) s)
    (⟨grid, copyGrid grid⟩ : GolState)).map (fun s => s.nextGrid)

end Evaluate

/-- Lift a 0/1 literal to a grid of number slots. -/
def ofNats (g : List (List Nat)) : Grid :=
  g.map (fun rowArr => rowArr.map (fun v => some (v : Int)))

/-- The vertical blinker `[[0,1,0],[0,1,0],[0,1,0]]`. -/
def blinkerV : Grid := ofNats [[0, 1, 0], [0, 1, 0], [0, 1, 0]]

/-- The horizontal blinker `[[0,0,0],[1,1,1],[0,0,0]]`. -/
def blinkerH : Grid := ofNats [[0, 0, 0], [1, 1, 1], [0, 0, 0]]

/-- The slot stored at row `r`, column `c`: `none` when the row or the slot
is absent, `some cell` for an actual slot (which may itself be a hole). -/
def entryAt (g : Grid) (r c : Nat) : Option Cell :=
  g[r]?.bind (fun rowArr => rowArr[c]?)

/-- The module-level mutable state of `part_000`: the current grid and the
running flag (the stored timer id never reaches the core functions). -/
structure ModuleState where
  grid : Grid
  isRunning : Bool
deriving DecidableEq, Repr

/-- An invocation the surrounding script can make against the module. -/
inductive ModuleCall : Type
  | golCall (g : Grid)
  | countCall (g : Grid) (row col : Int)
  | stepClick
  | toggleClick (row col : Nat)
  | startClick
  | pauseClick
deriving DecidableEq, Repr

/-- The observable outcome of one invocation. -/
inductive CallOutcome : Type
  | gridOutcome (v : Except Unit Grid)
  | countOutcome (v : Except Unit Nat)
  | noOutcome

/-- One invocation against the module state, the load-time constants fixed:
`gameOfLife` and `countLiveNeighbors` compute from their arguments alone,
while the click handlers (next/toggle/start/pause) mutate the state. -/
def runCall (numRows numCols : Nat) (s : ModuleState) :
    ModuleCall → ModuleState × CallOutcome
  | .golCall g => (s, .gridOutcome (gameOfLife numRows numCols g))
  | .countCall g row col =>
    (s, .countOutcome (countLiveNeighbors numRows numCols g row col))
  | .stepClick =>
    match gameOfLife numRows numCols s.grid with
    | .ok g' => ({ s with grid := g' }, .noOutcome)
    | .error _ => (s, .noOutcome)
  | .toggleClick row col =>
    match readCell s.grid row col with
    | .error _ => (s, .noOutcome)
    | .ok cell =>
      match writeCell s.grid row col (if cell = some 1 then 0 else 1) with
      | .ok g' => ({ s with grid := g' }, .noOutcome)
      | .error _ => (s, .noOutcome)
  | .startClick => ({ s with isRunning := true }, .noOutcome)
  | .pauseClick => ({ s with isRunning := false }, .noOutcome)

/-- Replay a history of invocations, keeping the final module state. -/
def runCalls (numRows numCols : Nat) (s : ModuleState) : List ModuleCall → ModuleState
  | [] => s
  | c :: rest => runCalls numRows numCols (runCall numRows numCols s c).1 rest

/-- The grid invariant of the data model: `grid.length` equals the module
constant `numRows` and every row has exactly `numCols` slots. -/
abbrev Rect (g : Grid) (numRows numCols : Nat) : Prop :=
  g.length = numRows ∧ ∀ rowArr ∈ g, rowArr.length = numCols

/-- Every slot of the grid holds the number 0 or the number 1. -/
abbrev ZeroOne (g : Grid) : Prop :=
  ∀ rowArr ∈ g, ∀ cell ∈ rowArr, cell = some 0 ∨ cell = some 1

/-- The bounds test both scripts apply to a neighbor coordinate. -/
def inFence (numRows numCols : Nat) (r c : Int) : Bool :=
  decide (0 ≤ r ∧ r < (numRows : Int) ∧ 0 ≤ c ∧ c < (numCols : Int))

/-- The value held at `(r, c)` of the grid, read as JavaScript reads it when
neither index throws: `undefined` off the grid, the slot's number on it. -/
def slotAt (g : Grid) (r c : Int) : Option Int :=
  ((getIdx? g r).bind (fun rowArr => getIdx? rowArr c)).join

/-- The cell at `(r, c)` is a live cell. -/
def aliveAt (g : Grid) (r c : Int) : Bool :=
  decide (slotAt g r c = some 1)

/-- The specification's neighbor count: the number of ALIVE cells among the
eight offset coordinates that lie within the grid's bounds. -/
def specNeighborCount (numRows numCols : Nat) (g : Grid) (row col : Int) : Nat :=
  directions.countP
    (fun d =>
      inFence numRows numCols (row + d.1) (col + d.2) &&
        aliveAt g (row + d.1) (col + d.2))

/-- The four Game-of-Life rules in the specification's precedence: a live
cell with fewer than 2 live neighbors dies, a live cell with more than 3
dies, a live cell with 2 or 3 survives, a dead cell with exactly 3 becomes
alive, anything else keeps its state. -/
def lifeRule (alive : Bool) (liveNeighbors : Nat) : Bool :=
  if alive ∧ liveNeighbors < 2 then false
  else if alive ∧ liveNeighbors > 3 then false
  else if alive ∧ (liveNeighbors = 2 ∨ liveNeighbors = 3) then true
  else if ¬alive ∧ liveNeighbors = 3 then true
  else alive

instance {ε α : Type} [DecidableEq ε] [DecidableEq α] : DecidableEq (Except ε α)
  | .error a, .error b => decidable_of_iff (a = b) (by simp)
  | .error _, .ok _ => isFalse (by simp)
  | .ok _, .error _ => isFalse (by simp)
  | .ok a, .ok b => decidable_of_iff (a = b) (by simp)

/-- C4: stepping the vertical blinker yields the horizontal blinker. -/
theorem nextGeneration_blinker : nextGeneration blinkerV = .ok blinkerH := by
  decide

/-- C5: stepping the blinker twice returns the original blinker. -/
theorem nextGeneration_blinker_period_two :
    (nextGeneration blinkerV >>= nextGeneration) = .ok blinkerV := by
  decide

/-- Under the grid invariant, one direction's contribution never throws and
is the indicator of an in-bounds live neighbor. -/
theorem neighborContrib_rect {g : Grid} {n m : Nat} (hR : Rect g n m) (r c : Int) :
    neighborContrib n m g r c =
      .ok (if (inFence n m r c && aliveAt g r c) = true then 1 else 0) := by
  unfold neighborContrib
  by_cases h : 0 ≤ r ∧ r < (n : Int) ∧ 0 ≤ c ∧ c < (m : Int)
  · rw [if_pos h]
    have hr : r.toNat < g.length := by
      rw [hR.1]; omega
    have hg : g[r.toNat]? = some g[r.toNat] := List.getElem?_eq_getElem hr
    have hgi : getIdx? g r = some g[r.toNat] := by
      unfold getIdx?; rw [if_pos h.1, hg]
    rw [hgi]
    have hf : inFence n m r c = true := decide_eq_true h
    simp [hf, aliveAt, slotAt, hgi]
  · rw [if_neg h]
    have hf : inFence n m r c = false := decide_eq_false h
    simp [hf]

/-- The accumulating fold of `countLiveNeighbors`, over any direction list
whose contributions are known indicators. -/
theorem count_fold {g : Grid} {n m : Nat} (p : Int × Int → Bool) (row col : Int)
    (hc : ∀ d, neighborContrib n m g (row + d.1) (col + d.2) = .ok (if p d then 1 else 0)) :
    ∀ (L : List (Int × Int)) (acc : Nat),
      L.foldlM
        (fun liveNeighbors d => do
          let contrib ← neighborContrib n m g (row + d.1) (col + d.2)
          pure (liveNeighbors + contrib))
        acc = .ok (acc + L.countP p) := by
  intro L
  induction L with
  | nil => intro acc; rfl
  | cons d L ih =>
    intro acc
    rw [List.foldlM_cons, hc d]
    show (Except.ok (if p d then 1 else 0) >>= fun contrib =>
        pure (acc + contrib)) >>= _ = _
    rw [List.countP_cons]
    generalize (if p d = true then 1 else 0) = k
    show List.foldlM _ (acc + k) L = _
    rw [ih (acc + k)]
    congr 1
    omega

/-- Under the grid invariant, `countLiveNeighbors` never throws and returns
the specification's neighbor count, for any coordinate whatsoever. -/
theorem countLiveNeighbors_eq {g : Grid} {n m : Nat} (hR : Rect g n m) (row col : Int) :
    countLiveNeighbors n m g row col = .ok (specNeighborCount n m g row col) := by
  unfold countLiveNeighbors specNeighborCount
  have h := count_fold
    (fun d => inFence n m (row + d.1) (col + d.2) && aliveAt g (row + d.1) (col + d.2))
    row col (fun d => neighborContrib_rect hR _ _) directions 0
  simpa using h

/-- C2: on a rectangular grid and an in-bounds coordinate,
`countLiveNeighbors` returns exactly the number of ALIVE cells among the
eight offset coordinates that lie within bounds, a value in `[0, 8]`;
out-of-bounds offsets are skipped. -/
theorem countLiveNeighbors_correct (n m : Nat) (g : Grid) (row col : Int)
    (hR : Rect g n m) (hrow : 0 ≤ row ∧ row < (n : Int))
    (hcol : 0 ≤ col ∧ col < (m : Int)) :
    countLiveNeighbors n m g row col = .ok (specNeighborCount n m g row col) ∧
      specNeighborCount n m g row col ≤ 8 := by
  refine ⟨countLiveNeighbors_eq hR row col, ?_⟩
  have h : specNeighborCount n m g row col ≤ directions.length :=
    List.countP_le_length _
  simpa [directions] using h

/-- C2 witness: the center of the blinker has two live neighbors. -/
theorem countLiveNeighbors_correct_witness :
    countLiveNeighbors 3 3 blinkerV 1 1 = .ok (specNeighborCount 3 3 blinkerV 1 1) ∧
      specNeighborCount 3 3 blinkerV 1 1 ≤ 8 :=
  countLiveNeighbors_correct 3 3 blinkerV 1 1 (by decide) (by decide) (by decide)

/-- The spread copy has the same slots as the original. -/
theorem copyGrid_eq (g : Grid) : copyGrid g = g := by
  unfold copyGrid
  simp

/-- Writing `v` at `col` makes slot `col` hold `v`. -/
theorem jsSetRow_self (rowArr : List Cell) (col : Nat) (v : Int) :
    (jsSetRow rowArr col v)[col]? = some (some v) := by
  unfold jsSetRow
  by_cases h : col < rowArr.length
  · rw [if_pos h]
    exact List.getElem?_set_self h
  · rw [if_neg h]
    have hlen : (rowArr ++ List.replicate (col - rowArr.length) (none : Cell)).length = col := by
      simp
      omega
    rw [List.getElem?_append, if_neg (by rw [hlen]; omega), hlen]
    simp

/-- Writing at `col` leaves slots past `col` unchanged. -/
theorem jsSetRow_gt (rowArr : List Cell) {col c' : Nat} (v : Int) (h : col < c') :
    (jsSetRow rowArr col v)[c']? = rowArr[c']? := by
  unfold jsSetRow
  by_cases hc : col < rowArr.length
  · rw [if_pos hc]
    exact List.getElem?_set_ne (by omega)
  · rw [if_neg hc]
    have h1 : rowArr[c']? = none := List.getElem?_eq_none (by omega)
    have h2 : ((rowArr ++ List.replicate (col - rowArr.length) (none : Cell)) ++
        [some v]).length ≤ c' := by
      simp
      omega
    rw [h1, List.getElem?_eq_none h2]

/-- Writing at `col` leaves other slots of the original extent unchanged. -/
theorem jsSetRow_ne_lt (rowArr : List Cell) {col c' : Nat} (v : Int)
    (hne : c' ≠ col) (hlt : c' < rowArr.length) :
    (jsSetRow rowArr col v)[c']? = rowArr[c']? := by
  unfold jsSetRow
  by_cases hc : col < rowArr.length
  · rw [if_pos hc]
    exact List.getElem?_set_ne (fun hh => hne hh.symm)
  · rw [if_neg hc]
    rw [List.getElem?_append, if_pos (by simp; omega)]
    rw [List.getElem?_append, if_pos hlt]

/-- An in-range write keeps the row's length. -/
theorem jsSetRow_length (rowArr : List Cell) {col : Nat} (v : Int)
    (h : col < rowArr.length) :
    (jsSetRow rowArr col v).length = rowArr.length := by
  unfold jsSetRow
  rw [if_pos h, List.length_set]

/-- An in-range write is a plain `set`. -/
theorem jsSetRow_of_lt (rowArr : List Cell) {col : Nat} (v : Int)
    (h : col < rowArr.length) :
    jsSetRow rowArr col v = rowArr.set col (some v) := by
  unfold jsSetRow
  rw [if_pos h]

/-- Setting a slot to the value it already holds changes nothing. -/
theorem set_of_getElem? {α : Type} {l : List α} {i : Nat} {a : α}
    (h : l[i]? = some a) : l.set i a = l := by
  apply List.ext_getElem?
  intro k
  by_cases hk : k = i
  · subst hk
    rw [List.getElem?_set_self (List.getElem?_eq_some.mp h).1, h]
  · rw [List.getElem?_set_ne (fun hh => hk hh.symm)]

/-- `modifyRow` keeps the number of rows. -/
theorem modifyRow_length (g : Grid) (row : Nat) (f : List Cell → List Cell) :
    (modifyRow g row f).length = g.length := by
  induction g generalizing row with
  | nil => rfl
  | cons r rs ih =>
    cases row with
    | zero => rfl
    | succ k => simpa [modifyRow] using ih k

/-- `modifyRow` rewrites exactly the selected row. -/
theorem modifyRow_self (g : Grid) (row : Nat) (f : List Cell → List Cell) :
    (modifyRow g row f)[row]? = g[row]?.map f := by
  induction g generalizing row with
  | nil => simp [modifyRow]
  | cons r rs ih =>
    cases row with
    | zero => simp [modifyRow]
    | succ k => simpa [modifyRow] using ih k

/-- `modifyRow` leaves every other row unchanged. -/
theorem modifyRow_ne (g : Grid) {row r' : Nat} (f : List Cell → List Cell)
    (h : r' ≠ row) :
    (modifyRow g row f)[r']? = g[r']? := by
  induction g generalizing row r' with
  | nil => rfl
  | cons r rs ih =>
    cases row with
    | zero =>
      cases r' with
      | zero => exact absurd rfl h
      | succ k => simp [modifyRow]
    | succ k =>
      cases r' with
      | zero => simp [modifyRow]
      | succ k' =>
        simp only [modifyRow, List.getElem?_cons_succ]
        exact ih (fun hh => h (by omega))

/-- Rewriting a row to itself changes nothing. -/
theorem modifyRow_id {g : Grid} {row : Nat} {f : List Cell → List Cell}
    {rowArr : List Cell} (hrow : g[row]? = some rowArr) (hf : f rowArr = rowArr) :
    modifyRow g row f = g := by
  apply List.ext_getElem?
  intro k
  by_cases hk : k = row
  · subst hk
    rw [modifyRow_self, hrow]
    simp [hf]
  · rw [modifyRow_ne g _ hk]

/-- C9: `gameOfLife` and `countLiveNeighbors` are deterministic and free of
hidden mutable state: after any two histories of module invocations, calling
them on equal snapshots returns equal results — the pure value of the
function on its arguments — and leaves the module state untouched. -/
theorem gameOfLife_pure_reentrant (numRows numCols : Nat) (s0 : ModuleState)
    (hist1 hist2 : List ModuleCall) (g : Grid) (row col : Int) :
    (runCall numRows numCols (runCalls numRows numCols s0 hist1) (.golCall g)).2 =
        (runCall numRows numCols (runCalls numRows numCols s0 hist2) (.golCall g)).2 ∧
      (runCall numRows numCols (runCalls numRows numCols s0 hist1) (.golCall g)).1 =
        runCalls numRows numCols s0 hist1 ∧
      (runCall numRows numCols (runCalls numRows numCols s0 hist1)
          (.countCall g row col)).2 =
        (runCall numRows numCols (runCalls numRows numCols s0 hist2)
          (.countCall g row col)).2 ∧
      (runCall numRows numCols (runCalls numRows numCols s0 hist1)
          (.countCall g row col)).1 =
        runCalls numRows numCols s0 hist1 ∧
      (runCall numRows numCols (runCalls numRows numCols s0 hist1) (.golCall g)).2 =
        .gridOutcome (gameOfLife numRows numCols g) ∧
      (runCall numRows numCols (runCalls numRows numCols s0 hist1)
          (.countCall g row col)).2 =
        .countOutcome (countLiveNeighbors numRows numCols g row col) :=
  ⟨rfl, rfl, rfl, rfl, rfl, rfl⟩

/-- `ok` feeds the continuation of a `do` block. -/
theorem ok_bind {ε α β : Type} (a : α) (f : α → Except ε β) :
    (Except.ok a >>= f) = f a := rfl

/-- An error short-circuits the rest of a `do` block. -/
theorem error_bind {ε α β : Type} (e : ε) (f : α → Except ε β) :
    ((Except.error e : Except ε α) >>= f) = Except.error e := rfl

/-- `pure` of this monad is `ok`. -/
theorem pure_eq_ok {ε α : Type} (a : α) : (pure a : Except ε α) = Except.ok a := rfl

/-- Every row reachable by index in a rectangular grid has `numCols` slots. -/
theorem rect_getElem? {g : Grid} {n m : Nat} (hR : Rect g n m) {i : Nat}
    {rowArr : List Cell} (h : g[i]? = some rowArr) : rowArr.length = m :=
  hR.2 rowArr (List.mem_iff_getElem?.mpr ⟨i, h⟩)

/-- Rectangularity from indexwise row lengths. -/
theorem rect_of_getElem? {g : Grid} {n m : Nat} (hlen : g.length = n)
    (h : ∀ (i : Nat) (rowArr : List Cell), g[i]? = some rowArr → rowArr.length = m) :
    Rect g n m := by
  refine ⟨hlen, fun rowArr hmem => ?_⟩
  obtain ⟨i, hi⟩ := List.mem_iff_getElem?.mp hmem
  exact h i rowArr hi

/-- What a successful `nextGrid[row][col] = v` does to the buffer's slots. -/
theorem writeCell_props {b b' : Grid} {row col : Nat} {v : Int}
    (h : writeCell b row col v = .ok b') :
    b'.length = b.length ∧
      entryAt b' row col = some (some v) ∧
      (∀ r' c', r' ≠ row ∨ col < c' → entryAt b' r' c' = entryAt b r' c') ∧
      (∀ c' nrow, b[row]? = some nrow → c' ≠ col → c' < nrow.length →
        entryAt b' row c' = entryAt b row c') := by
  unfold writeCell at h
  by_cases hlen : row < b.length
  · rw [if_pos hlen] at h
    injection h with h
    subst h
    have hnrow : b[row]? = some b[row] := List.getElem?_eq_getElem hlen
    refine ⟨modifyRow_length b row _, ?_, ?_, ?_⟩
    · unfold entryAt
      rw [modifyRow_self, hnrow]
      simp [jsSetRow_self]
    · intro r' c' hh
      by_cases hr : r' = row
      · subst hr
        have hc : col < c' := hh.elim (fun hr => absurd rfl hr) id
        unfold entryAt
        rw [modifyRow_self, hnrow]
        simp [jsSetRow_gt _ _ hc]
      · unfold entryAt
        rw [modifyRow_ne b _ hr]
    · intro c' nrow hrow hne hlt
      rw [hnrow] at hrow
      injection hrow with hrow
      subst hrow
      unfold entryAt
      rw [modifyRow_self, hnrow]
      simp [jsSetRow_ne_lt _ _ hne hlt]
  · rw [if_neg hlen] at h
    cases h

/-- A successful in-range write preserves rectangularity. -/
theorem writeCell_rect {b b' : Grid} {n m row col : Nat} {v : Int}
    (hb : Rect b n m) (hcol : col < m) (h : writeCell b row col v = .ok b') :
    Rect b' n m := by
  unfold writeCell at h
  by_cases hlen : row < b.length
  · rw [if_pos hlen] at h
    injection h with h
    subst h
    refine rect_of_getElem? (by rw [modifyRow_length, hb.1]) ?_
    intro i rowArr hi
    by_cases hr : i = row
    · subst hr
      rw [modifyRow_self] at hi
      cases hrow : b[i]? with
      | none => rw [hrow] at hi; cases hi
      | some nrow =>
        rw [hrow] at hi
        injection hi with hi
        subst hi
        have hm : nrow.length = m := rect_getElem? hb hrow
        rw [jsSetRow_length _ _ (by omega), hm]
    · rw [modifyRow_ne b _ hr] at hi
      exact rect_getElem? hb hi
  · rw [if_neg hlen] at h
    cases h

/-- A successful cell step never touches the source snapshot and changes no
buffer slot other than the one it owns (its own row at its own column; the
slots it can pad all lie at earlier columns of the same row). -/
theorem stepCell_ok_props {n m : Nat} {s s' : GolState} {row col : Nat}
    (h : stepCell n m s row col = .ok s') :
    s'.grid = s.grid ∧
      ∀ r' c', r' ≠ row ∨ col < c' →
        entryAt s'.nextGrid r' c' = entryAt s.nextGrid r' c' := by
  unfold stepCell at h
  cases hcount : countLiveNeighbors n m s.grid (row : Int) (col : Int) with
  | error e => rw [hcount, error_bind] at h; cases h
  | ok k =>
    rw [hcount, ok_bind] at h
    cases hread : readCell s.grid row col with
    | error e => rw [hread, error_bind] at h; cases h
    | ok cell =>
      rw [hread, ok_bind] at h
      by_cases h1 : cell = some 1
      · rw [if_pos h1] at h
        by_cases h2 : k < 2 ∨ k > 3
        · rw [if_pos h2] at h
          cases hw : writeCell s.nextGrid row col 0 with
          | error e => rw [hw, error_bind] at h; cases h
          | ok b =>
            rw [hw, ok_bind, pure_eq_ok] at h
            injection h with h
            subst h
            exact ⟨rfl, fun r' c' hh => (writeCell_props hw).2.2.1 r' c' hh⟩
        · rw [if_neg h2] at h
          by_cases h3 : k = 2 ∨ k = 3
          · rw [if_pos h3] at h
            cases hw : writeCell s.nextGrid row col 1 with
            | error e => rw [hw, error_bind] at h; cases h
            | ok b =>
              rw [hw, ok_bind, pure_eq_ok] at h
              injection h with h
              subst h
              exact ⟨rfl, fun r' c' hh => (writeCell_props hw).2.2.1 r' c' hh⟩
          · rw [if_neg h3, pure_eq_ok] at h
            injection h with h
            subst h
            exact ⟨rfl, fun _ _ _ => rfl⟩
      · rw [if_neg h1] at h
        by_cases h4 : k = 3
        · rw [if_pos h4] at h
          cases hw : writeCell s.nextGrid row col 1 with
          | error e => rw [hw, error_bind] at h; cases h
          | ok b =>
            rw [hw, ok_bind, pure_eq_ok] at h
            injection h with h
            subst h
            exact ⟨rfl, fun r' c' hh => (writeCell_props hw).2.2.1 r' c' hh⟩
        · rw [if_neg h4, pure_eq_ok] at h
          injection h with h
          subst h
          exact ⟨rfl, fun _ _ _ => rfl⟩

/-- The two scripts' neighbor counters are the same function. -/
theorem evaluate_countLiveNeighbors_eq :
    Evaluate.countLiveNeighbors = countLiveNeighbors := rfl

/-- When the buffer still agrees with the source at the cell being stepped,
the two scripts' cell steps coincide: the only branch where they differ is a
surviving live cell, and there `part_000` writes the 1 that the copied
buffer already holds. -/
theorem stepCell_eq_evaluate {n m : Nat} (s : GolState) (row col : Nat)
    (hag : entryAt s.nextGrid row col = entryAt s.grid row col) :
    stepCell n m s row col = Evaluate.stepCell n m s row col := by
  unfold stepCell Evaluate.stepCell
  rw [evaluate_countLiveNeighbors_eq]
  cases hcount : countLiveNeighbors n m s.grid (row : Int) (col : Int) with
  | error e => rfl
  | ok k =>
    simp only [ok_bind]
    cases hread : readCell s.grid row col with
    | error e => rfl
    | ok cell =>
      simp only [ok_bind]
      by_cases h1 : cell = some 1
      · rw [if_pos h1, if_pos h1]
        by_cases h2 : k < 2 ∨ k > 3
        · rw [if_pos h2, if_pos h2]
        · rw [if_neg h2, if_neg h2, if_pos (show k = 2 ∨ k = 3 by omega)]
          have hcell : entryAt s.grid row col = some (some 1) := by
            unfold readCell at hread
            cases hh : s.grid[row]? with
            | none => rw [hh] at hread; cases hread
            | some rw1 =>
              rw [hh] at hread
              injection hread with hread
              unfold entryAt
              rw [hh]
              show rw1[col]? = some (some 1)
              exact Option.join_eq_some.mp (by rw [hread, h1])
          have hbuf : entryAt s.nextGrid row col = some (some 1) := by
            rw [hag, hcell]
          obtain ⟨nrow, hnrow, hslot⟩ :
              ∃ nrow, s.nextGrid[row]? = some nrow ∧ nrow[col]? = some (some 1) := by
            unfold entryAt at hbuf
            cases hh : s.nextGrid[row]? with
            | none => rw [hh] at hbuf; cases hbuf
            | some nrow =>
              rw [hh] at hbuf
              exact ⟨nrow, rfl, hbuf⟩
          have hw : writeCell s.nextGrid row col 1 = .ok s.nextGrid := by
            unfold writeCell
            rw [if_pos (List.getElem?_eq_some.mp hnrow).1]
            congr 1
            apply modifyRow_id hnrow
            rw [jsSetRow_of_lt _ _ (List.getElem?_eq_some.mp hslot).1]
            exact set_of_getElem? hslot
          rw [hw, ok_bind]
      · rw [if_neg h1, if_neg h1]

/-- Over any column suffix of the inner loop: while the buffer agrees with
the source on the cells not yet stepped, the two scripts' inner loops
coincide, and a successful run keeps the source snapshot and the rows below
the current one untouched. -/
theorem innerEq {n m : Nat} (row : Nat) :
    ∀ (k j : Nat) (s : GolState),
      (∀ c', j ≤ c' → entryAt s.nextGrid row c' = entryAt s.grid row c') →
      (∀ r' c', row < r' → entryAt s.nextGrid r' c' = entryAt s.grid r' c') →
      ((List.range' j k).foldlM (fun s col => stepCell n m s row col) s =
        (List.range' j k).foldlM (fun s col => Evaluate.stepCell n m s row col) s) ∧
      ∀ s', (List.range' j k).foldlM (fun s col => stepCell n m s row col) s = .ok s' →
        s'.grid = s.grid ∧
          ∀ r' c', row < r' → entryAt s'.nextGrid r' c' = entryAt s.nextGrid r' c' := by
  intro k
  induction k with
  | zero =>
    intro j s hrow hbelow
    refine ⟨rfl, ?_⟩
    intro s' hs'
    have h' : Except.ok s = Except.ok s' := hs'
    injection h' with h'
    subst h'
    exact ⟨rfl, fun _ _ _ => rfl⟩
  | succ k ih =>
    intro j s hrow hbelow
    simp only [List.range'_succ, List.foldlM_cons]
    rw [← stepCell_eq_evaluate s row j (hrow j le_rfl)]
    cases hs1 : stepCell n m s row j with
    | error e =>
      rw [error_bind]
      refine ⟨rfl, ?_⟩
      intro s' hs'
      cases hs'
    | ok s1 =>
      obtain ⟨hg1, hpres1⟩ := stepCell_ok_props hs1
      have hrow1 : ∀ c', j + 1 ≤ c' → entryAt s1.nextGrid row c' = entryAt s1.grid row c' := by
        intro c' hc'
        rw [hpres1 row c' (Or.inr (by omega)), hg1]
        exact hrow c' (by omega)
      have hbelow1 : ∀ r' c', row < r' →
          entryAt s1.nextGrid r' c' = entryAt s1.grid r' c' := by
        intro r' c' hr'
        rw [hpres1 r' c' (Or.inl (by omega)), hg1]
        exact hbelow r' c' hr'
      rw [ok_bind]
      refine ⟨(ih (j + 1) s1 hrow1 hbelow1).1, ?_⟩
      intro s' hs'
      obtain ⟨hg', hpres'⟩ := (ih (j + 1) s1 hrow1 hbelow1).2 s' hs'
      refine ⟨by rw [hg', hg1], ?_⟩
      intro r' c' hr'
      rw [hpres' r' c' hr', hpres1 r' c' (Or.inl (by omega))]

/-- Over any row suffix of the outer loop: while the buffer agrees with the
source on the rows not yet stepped, the two scripts' steppers coincide. -/
theorem outerEq {n m : Nat} :
    ∀ (k i : Nat) (s : GolState),
      (∀ r' c', i ≤ r' → entryAt s.nextGrid r' c' = entryAt s.grid r' c') →
      (List.range' i k).foldlM
          (fun s row =>
            (List.range' 0 m).foldlM (fun s col => stepCell n m s row col) s) s =
        (List.range' i k).foldlM
          (fun s row =>
            (List.range' 0 m).foldlM (fun s col => Evaluate.stepCell n m s row col) s) s := by
  intro k
  induction k with
  | zero => intro i s _; rfl
  | succ k ih =>
    intro i s hag
    simp only [List.range'_succ, List.foldlM_cons]
    have hin := innerEq (n := n) (m := m) i m 0 s
      (fun c' _ => hag i c' le_rfl) (fun r' c' hr => hag r' c' (by omega))
    rw [← hin.1]
    cases hs1 : (List.range' 0 m).foldlM (fun s col => stepCell n m s i col) s with
    | error e => rfl
    | ok s1 =>
      rw [ok_bind]
      obtain ⟨hg1, hpres1⟩ := hin.2 s1 hs1
      apply ih (i + 1) s1
      intro r' c' hr'
      rw [hpres1 r' c' (by omega), hg1]
      exact hag r' c' (by omega)

/-- C10: the two near-duplicate scripts compute the same transition: on every
grid, `part_000`'s `gameOfLife` and the grid that `evaluate.js`'s
`computeNextGeneration` stores back into its module-level `grid` are the
same value of `Except Unit Grid` (and in particular both succeed or both
throw together). -/
theorem gameOfLife_eq_computeNextGeneration (n m : Nat) (g : Grid) :
    gameOfLife n m g = Evaluate.computeNextGeneration n m g := by
  unfold gameOfLife Evaluate.computeNextGeneration golLoop
  have hag : ∀ r' c', 0 ≤ r' →
      entryAt (⟨g, copyGrid g⟩ : GolState).nextGrid r' c' =
        entryAt (⟨g, copyGrid g⟩ : GolState).grid r' c' := by
    intro r' c' _
    show entryAt (copyGrid g) r' c' = entryAt g r' c'
    rw [copyGrid_eq]
  have h := outerEq (n := n) (m := m) n 0 (⟨g, copyGrid g⟩ : GolState) hag
  rw [List.range_eq_range' n, List.range_eq_range' m, h]

/-- At natural coordinates, the JS read agrees with the slot table. -/
theorem slotAt_natCast (g : Grid) (row col : Nat) :
    slotAt g (row : Int) (col : Int) = (entryAt g row col).join := by
  unfold slotAt entryAt getIdx?
  simp [Int.natCast_nonneg, Int.toNat_natCast]

/-- On a live cell the rules say: survive exactly with 2 or 3 neighbors. -/
theorem lifeRule_true_eq (K : Nat) : lifeRule true K = decide (K = 2 ∨ K = 3) := by
  unfold lifeRule
  split_ifs <;> simp_all <;> omega

/-- On a dead cell the rules say: come alive exactly with 3 neighbors. -/
theorem lifeRule_false_eq (K : Nat) : lifeRule false K = decide (K = 3) := by
  unfold lifeRule
  split_ifs <;> simp_all

/-- An in-range-row write succeeds and is a row modification. -/
theorem writeCell_ok {b : Grid} {row : Nat} (col : Nat) (v : Int)
    (h : row < b.length) :
    writeCell b row col v = .ok (modifyRow b row (fun rowArr => jsSetRow rowArr col v)) := by
  unfold writeCell
  rw [if_pos h]

/-- A successful write had its row in range. -/
theorem writeCell_lt {b b' : Grid} {row col : Nat} {v : Int}
    (h : writeCell b row col v = .ok b') : row < b.length := by
  unfold writeCell at h
  by_cases hlen : row < b.length
  · exact hlen
  · rw [if_neg hlen] at h
    cases h

/-- On a rectangular buffer, a successful in-range write changes no slot
other than its own. -/
theorem writeCell_pres_other {b b' : Grid} {n m row col : Nat} {v : Int}
    (hw : writeCell b row col v = .ok b') (hb : Rect b n m) (hcol : col < m) :
    ∀ r' c', ¬(r' = row ∧ c' = col) → entryAt b' r' c' = entryAt b r' c' := by
  intro r' c' hne
  by_cases hr : r' = row
  · subst hr
    have hc : c' ≠ col := fun hc => hne ⟨rfl, hc⟩
    by_cases hlt : c' < col
    · obtain ⟨nrow, hnrow⟩ : ∃ nrow, b[r']? = some nrow :=
        ⟨_, List.getElem?_eq_getElem (writeCell_lt hw)⟩
      exact (writeCell_props hw).2.2.2 c' nrow hnrow hc
        (by rw [rect_getElem? hb hnrow]; omega)
    · exact (writeCell_props hw).2.2.1 _ _ (Or.inr (by omega))
  · exact (writeCell_props hw).2.2.1 _ _ (Or.inl hr)

/-- The cell step, written as a pure decision once the neighbor count and the
cell read are known. -/
theorem stepCell_eval {n m : Nat} {g b : Grid} {row col : Nat} {K : Nat} {cell0 : Cell}
    (hcount : countLiveNeighbors n m g (row : Int) (col : Int) = .ok K)
    (hread : readCell g row col = .ok cell0) :
    stepCell n m (⟨g, b⟩ : GolState) row col =
      (if cell0 = some 1 then
        if K < 2 ∨ K > 3 then
          writeCell b row col 0 >>= fun b1 => pure (⟨g, b1⟩ : GolState)
        else if K = 2 ∨ K = 3 then
          writeCell b row col 1 >>= fun b1 => pure (⟨g, b1⟩ : GolState)
        else pure ⟨g, b⟩
      else
        if K = 3 then
          writeCell b row col 1 >>= fun b1 => pure (⟨g, b1⟩ : GolState)
        else pure ⟨g, b⟩) := by
  unfold stepCell
  simp only [hcount, hread, ok_bind]

/-- One cell step on a rectangular 0/1 grid: it succeeds, writes exactly the
rule's verdict for its own cell into the buffer, and touches nothing else. -/
theorem stepCell_rect {n m : Nat} {g b : Grid} (hR : Rect g n m) (hZ : ZeroOne g)
    (hb : Rect b n m) {row col : Nat} (hrow : row < n) (hcol : col < m)
    (hag : entryAt b row col = entryAt g row col) :
    ∃ b', stepCell n m (⟨g, b⟩ : GolState) row col = .ok ⟨g, b'⟩ ∧ Rect b' n m ∧
      entryAt b' row col =
        some (some (if lifeRule (aliveAt g (row : Int) (col : Int))
          (specNeighborCount n m g (row : Int) (col : Int)) then 1 else 0)) ∧
      ∀ r' c', ¬(r' = row ∧ c' = col) → entryAt b' r' c' = entryAt b r' c' := by
  have hlen : row < g.length := by rw [hR.1]; exact hrow
  obtain ⟨grow, hgrow⟩ : ∃ grow, g[row]? = some grow :=
    ⟨_, List.getElem?_eq_getElem hlen⟩
  have hcollt : col < grow.length := by rw [rect_getElem? hR hgrow]; exact hcol
  obtain ⟨cell0, hcell0⟩ : ∃ cell0, grow[col]? = some cell0 :=
    ⟨_, List.getElem?_eq_getElem hcollt⟩
  have hZ0 : cell0 = some 0 ∨ cell0 = some 1 :=
    hZ grow (List.mem_iff_getElem?.mpr ⟨row, hgrow⟩) cell0
      (List.mem_iff_getElem?.mpr ⟨col, hcell0⟩)
  have hread : readCell g row col = .ok cell0 := by
    unfold readCell
    rw [hgrow]
    show Except.ok (grow[col]?).join = _
    rw [hcell0]
    rfl
  have hentryg : entryAt g row col = some cell0 := by
    unfold entryAt
    rw [hgrow]
    show grow[col]? = some cell0
    exact hcell0
  have halive : aliveAt g (row : Int) (col : Int) = decide (cell0 = some 1) := by
    unfold aliveAt
    rw [slotAt_natCast, hentryg]
    rfl
  have hcount : countLiveNeighbors n m g (row : Int) (col : Int) =
      .ok (specNeighborCount n m g (row : Int) (col : Int)) :=
    countLiveNeighbors_eq hR _ _
  have hwlen : row < b.length := by rw [hb.1]; exact hrow
  rw [stepCell_eval hcount hread]
  rcases hZ0 with h0 | h0
  · -- dead cell
    have halive0 : aliveAt g (row : Int) (col : Int) = false := by
      rw [halive, h0]
      rfl
    rw [if_neg (by rw [h0]; simp)]
    by_cases h4 : specNeighborCount n m g (row : Int) (col : Int) = 3
    · rw [if_pos h4, writeCell_ok col 1 hwlen, ok_bind]
      refine ⟨_, rfl, writeCell_rect hb hcol (writeCell_ok col 1 hwlen), ?_, ?_⟩
      · rw [(writeCell_props (writeCell_ok col 1 hwlen)).2.1, halive0,
          lifeRule_false_eq, decide_eq_true h4]
        rfl
      · exact writeCell_pres_other (writeCell_ok col 1 hwlen) hb hcol
    · rw [if_neg h4, pure_eq_ok]
      refine ⟨b, rfl, hb, ?_, fun _ _ _ => rfl⟩
      rw [hag, hentryg, h0, halive0, lifeRule_false_eq, decide_eq_false h4]
      rfl
  · -- live cell
    have halive1 : aliveAt g (row : Int) (col : Int) = true := by
      rw [halive, h0]
      rfl
    rw [if_pos h0]
    by_cases h2 : specNeighborCount n m g (row : Int) (col : Int) < 2 ∨
        specNeighborCount n m g (row : Int) (col : Int) > 3
    · rw [if_pos h2, writeCell_ok col 0 hwlen, ok_bind]
      refine ⟨_, rfl, writeCell_rect hb hcol (writeCell_ok col 0 hwlen), ?_, ?_⟩
      · rw [(writeCell_props (writeCell_ok col 0 hwlen)).2.1, halive1,
          lifeRule_true_eq, decide_eq_false (by omega)]
        rfl
      · exact writeCell_pres_other (writeCell_ok col 0 hwlen) hb hcol
    · rw [if_neg h2, if_pos (show _ ∨ _ by omega), writeCell_ok col 1 hwlen, ok_bind]
      refine ⟨_, rfl, writeCell_rect hb hcol (writeCell_ok col 1 hwlen), ?_, ?_⟩
      · rw [(writeCell_props (writeCell_ok col 1 hwlen)).2.1, halive1,
          lifeRule_true_eq, decide_eq_true (by omega)]
        rfl
      · exact writeCell_pres_other (writeCell_ok col 1 hwlen) hb hcol

/-- The inner loop on a rectangular 0/1 grid: stepping columns `j, …, m-1` of
one row succeeds and fills exactly those cells of the row with the rule's
verdicts, leaving every other slot of the buffer as it was. -/
theorem innerLoopRect {n m : Nat} {g : Grid} (hR : Rect g n m) (hZ : ZeroOne g)
    (row : Nat) (hrow : row < n) :
    ∀ (k j : Nat), j + k = m → ∀ b : Grid, Rect b n m →
      (∀ c', j ≤ c' → entryAt b row c' = entryAt g row c') →
      ∃ b', (List.range' j k).foldlM (fun s col => stepCell n m s row col)
          (⟨g, b⟩ : GolState) = .ok ⟨g, b'⟩ ∧ Rect b' n m ∧
        (∀ c', j ≤ c' → c' < m → entryAt b' row c' =
          some (some (if lifeRule (aliveAt g (row : Int) (c' : Int))
            (specNeighborCount n m g (row : Int) (c' : Int)) then 1 else 0))) ∧
        (∀ c', c' < j → entryAt b' row c' = entryAt b row c') ∧
        (∀ r' c', r' ≠ row → entryAt b' r' c' = entryAt b r' c') := by
  intro k
  induction k with
  | zero =>
    intro j hjk b hb hag
    exact ⟨b, rfl, hb, fun c' h1 h2 => absurd (by omega : c' < j) (by omega),
      fun _ _ => rfl, fun _ _ _ => rfl⟩
  | succ k ih =>
    intro j hjk b hb hag
    simp only [List.range'_succ, List.foldlM_cons]
    obtain ⟨b1, hstep, hb1R, hb1self, hb1pres⟩ :=
      stepCell_rect hR hZ hb hrow (by omega : j < m) (hag j le_rfl)
    rw [hstep, ok_bind]
    obtain ⟨b', hfold, hbR', hchar1, hchar2, hchar3⟩ := ih (j + 1) (by omega) b1 hb1R
      (fun c' hc' => by
        rw [hb1pres row c' (fun hh => by omega)]
        exact hag c' (by omega))
    refine ⟨b', hfold, hbR', ?_, ?_, ?_⟩
    · intro c' h1 h2
      by_cases hc : c' = j
      · subst hc
        rw [hchar2 c' (by omega)]
        exact hb1self
      · exact hchar1 c' (by omega) h2
    · intro c' h1
      rw [hchar2 c' (by omega)]
      exact hb1pres row c' (fun hh => by omega)
    · intro r' c' hr'
      rw [hchar3 r' c' hr']
      exact hb1pres r' c' (fun hh => hr' hh.1)

/-- The outer loop on a rectangular 0/1 grid: stepping rows `i, …, n-1`
succeeds and fills exactly those rows with the rule's verdicts. -/
theorem outerLoopRect {n m : Nat} {g : Grid} (hR : Rect g n m) (hZ : ZeroOne g) :
    ∀ (k i : Nat), i + k = n → ∀ b : Grid, Rect b n m →
      (∀ r' c', i ≤ r' → entryAt b r' c' = entryAt g r' c') →
      ∃ b', (List.range' i k).foldlM
          (fun s row => (List.range' 0 m).foldlM (fun s col => stepCell n m s row col) s)
          (⟨g, b⟩ : GolState) = .ok ⟨g, b'⟩ ∧ Rect b' n m ∧
        (∀ r' c', i ≤ r' → r' < n → c' < m → entryAt b' r' c' =
          some (some (if lifeRule (aliveAt g (r' : Int) (c' : Int))
            (specNeighborCount n m g (r' : Int) (c' : Int)) then 1 else 0))) ∧
        (∀ r' c', r' < i → entryAt b' r' c' = entryAt b r' c') := by
  intro k
  induction k with
  | zero =>
    intro i hik b hb hag
    exact ⟨b, rfl, hb, fun r' c' h1 h2 _ => absurd (by omega : r' < i) (by omega),
      fun _ _ _ => rfl⟩
  | succ k ih =>
    intro i hik b hb hag
    simp only [List.range'_succ, List.foldlM_cons]
    obtain ⟨b1, hstep, hb1R, hb1self, hb1low, hb1other⟩ :=
      innerLoopRect hR hZ i (by omega) m 0 (by omega) b hb (fun c' _ => hag i c' le_rfl)
    rw [hstep, ok_bind]
    obtain ⟨b', hfold, hbR', hchar1, hchar2⟩ := ih (i + 1) (by omega) b1 hb1R
      (fun r' c' hr' => by
        rw [hb1other r' c' (by omega)]
        exact hag r' c' (by omega))
    refine ⟨b', hfold, hbR', ?_, ?_⟩
    · intro r' c' h1 h2 h3
      by_cases hr : r' = i
      · subst hr
        rw [hchar2 r' c' (by omega)]
        exact hb1self c' (by omega) h3
      · exact hchar1 r' c' (by omega) h2 h3
    · intro r' c' h1
      rw [hchar2 r' c' (by omega)]
      exact hb1other r' c' (by omega)

/-- C1: on every rectangular 0/1 grid matching the module constants,
`gameOfLife` succeeds and every output cell is exactly the four rules'
verdict on that cell's old state and its live-neighbor count, both taken
from the old input grid alone. -/
theorem gameOfLife_rules (n m : Nat) (g : Grid) (hR : Rect g n m) (hZ : ZeroOne g) :
    ∃ out, gameOfLife n m g = .ok out ∧
      ∀ row col : Nat, row < n → col < m →
        entryAt out row col =
          some (some (if lifeRule (aliveAt g (row : Int) (col : Int))
            (specNeighborCount n m g (row : Int) (col : Int)) then 1 else 0)) := by
  obtain ⟨b', hfold, hbR', hchar1, hchar2⟩ :=
    outerLoopRect hR hZ n 0 (by omega) g hR (fun _ _ _ => rfl)
  refine ⟨b', ?_, ?_⟩
  · unfold gameOfLife golLoop
    rw [copyGrid_eq, List.range_eq_range' n, List.range_eq_range' m, hfold]
    rfl
  · intro row col h1 h2
    exact hchar1 row col (by omega) h1 h2

/-- C1 witness: the rules theorem applied to the blinker. -/
theorem gameOfLife_rules_witness :
    ∃ out, gameOfLife 3 3 blinkerV = .ok out ∧
      ∀ row col : Nat, row < 3 → col < 3 →
        entryAt out row col =
          some (some (if lifeRule (aliveAt blinkerV (row : Int) (col : Int))
            (specNeighborCount 3 3 blinkerV (row : Int) (col : Int)) then 1 else 0)) :=
  gameOfLife_rules 3 3 blinkerV (by decide) (by decide)

/-- One cell step on any rectangular grid succeeds and keeps the buffer
rectangular (no 0/1 restriction on cell values needed). -/
theorem stepCell_shape {n m : Nat} {g b : Grid} (hR : Rect g n m) (hb : Rect b n m)
    {row col : Nat} (hrow : row < n) (hcol : col < m) :
    ∃ b', stepCell n m (⟨g, b⟩ : GolState) row col = .ok ⟨g, b'⟩ ∧ Rect b' n m := by
  have hlen : row < g.length := by rw [hR.1]; exact hrow
  obtain ⟨grow, hgrow⟩ : ∃ grow, g[row]? = some grow :=
    ⟨_, List.getElem?_eq_getElem hlen⟩
  have hcollt : col < grow.length := by rw [rect_getElem? hR hgrow]; exact hcol
  obtain ⟨cell0, hcell0⟩ : ∃ cell0, grow[col]? = some cell0 :=
    ⟨_, List.getElem?_eq_getElem hcollt⟩
  have hread : readCell g row col = .ok cell0 := by
    unfold readCell
    rw [hgrow]
    show Except.ok (grow[col]?).join = _
    rw [hcell0]
    rfl
  have hcount : countLiveNeighbors n m g (row : Int) (col : Int) =
      .ok (specNeighborCount n m g (row : Int) (col : Int)) :=
    countLiveNeighbors_eq hR _ _
  have hwlen : row < b.length := by rw [hb.1]; exact hrow
  rw [stepCell_eval hcount hread]
  by_cases h1 : cell0 = some 1
  · rw [if_pos h1]
    by_cases h2 : specNeighborCount n m g (row : Int) (col : Int) < 2 ∨
        specNeighborCount n m g (row : Int) (col : Int) > 3
    · rw [if_pos h2, writeCell_ok col 0 hwlen, ok_bind]
      exact ⟨_, rfl, writeCell_rect hb hcol (writeCell_ok col 0 hwlen)⟩
    · rw [if_neg h2, if_pos (show _ ∨ _ by omega), writeCell_ok col 1 hwlen, ok_bind]
      exact ⟨_, rfl, writeCell_rect hb hcol (writeCell_ok col 1 hwlen)⟩
  · rw [if_neg h1]
    by_cases h4 : specNeighborCount n m g (row : Int) (col : Int) = 3
    · rw [if_pos h4, writeCell_ok col 1 hwlen, ok_bind]
      exact ⟨_, rfl, writeCell_rect hb hcol (writeCell_ok col 1 hwlen)⟩
    · rw [if_neg h4, pure_eq_ok]
      exact ⟨b, rfl, hb⟩

/-- The inner loop keeps any rectangular buffer rectangular. -/
theorem innerLoopShape {n m : Nat} {g : Grid} (hR : Rect g n m)
    (row : Nat) (hrow : row < n) :
    ∀ (k j : Nat), j + k ≤ m → ∀ b : Grid, Rect b n m →
      ∃ b', (List.range' j k).foldlM (fun s col => stepCell n m s row col)
          (⟨g, b⟩ : GolState) = .ok ⟨g, b'⟩ ∧ Rect b' n m := by
  intro k
  induction k with
  | zero => intro j hjk b hb; exact ⟨b, rfl, hb⟩
  | succ k ih =>
    intro j hjk b hb
    simp only [List.range'_succ, List.foldlM_cons]
    obtain ⟨b1, hstep, hb1R⟩ := stepCell_shape hR hb hrow (by omega : j < m)
    rw [hstep, ok_bind]
    exact ih (j + 1) (by omega) b1 hb1R

/-- The outer loop keeps any rectangular buffer rectangular. -/
theorem outerLoopShape {n m : Nat} {g : Grid} (hR : Rect g n m) :
    ∀ (k i : Nat), i + k ≤ n → ∀ b : Grid, Rect b n m →
      ∃ b', (List.range' i k).foldlM
          (fun s row => (List.range' 0 m).foldlM (fun s col => stepCell n m s row col) s)
          (⟨g, b⟩ : GolState) = .ok ⟨g, b'⟩ ∧ Rect b' n m := by
  intro k
  induction k with
  | zero => intro i hik b hb; exact ⟨b, rfl, hb⟩
  | succ k ih =>
    intro i hik b hb
    simp only [List.range'_succ, List.foldlM_cons]
    obtain ⟨b1, hstep, hb1R⟩ := innerLoopShape hR i (by omega) m 0 (by omega) b hb
    rw [hstep, ok_bind]
    exact ih (i + 1) (by omega) b1 hb1R

/-- C3: on every rectangular grid matching the module constants,
`gameOfLife` succeeds with a grid of exactly the input's dimensions: the
same number of rows, and every row as long as the corresponding input row. -/
theorem gameOfLife_dims (n m : Nat) (g : Grid) (hR : Rect g n m) :
    ∃ out, gameOfLife n m g = .ok out ∧ out.length = g.length ∧
      ∀ i : Nat, (out[i]?).map List.length = (g[i]?).map List.length := by
  obtain ⟨b', hfold, hbR'⟩ := outerLoopShape hR n 0 (by omega) g hR
  refine ⟨b', ?_, ?_, ?_⟩
  · unfold gameOfLife golLoop
    rw [copyGrid_eq, List.range_eq_range' n, List.range_eq_range' m, hfold]
    rfl
  · rw [hbR'.1, hR.1]
  · intro i
    by_cases hi : i < n
    · have h1 : i < b'.length := by rw [hbR'.1]; exact hi
      have h2 : i < g.length := by rw [hR.1]; exact hi
      rw [List.getElem?_eq_getElem h1, List.getElem?_eq_getElem h2]
      simp [rect_getElem? hbR' (List.getElem?_eq_getElem h1),
        rect_getElem? hR (List.getElem?_eq_getElem h2)]
    · rw [List.getElem?_eq_none (by rw [hbR'.1]; omega),
        List.getElem?_eq_none (by rw [hR.1]; omega)]

/-- C3 witness: dimension preservation on the blinker. -/
theorem gameOfLife_dims_witness :
    ∃ out, gameOfLife 3 3 blinkerV = .ok out ∧ out.length = blinkerV.length ∧
      ∀ i : Nat, (out[i]?).map List.length = (blinkerV[i]?).map List.length :=
  gameOfLife_dims 3 3 blinkerV (by decide)

/-- A fold whose every step keeps the source snapshot keeps it overall. -/
theorem foldlM_grid_eq {α : Type} (f : GolState → α → Except Unit GolState)
    (hf : ∀ s a s', f s a = .ok s' → s'.grid = s.grid) :
    ∀ (L : List α) (s s' : GolState), L.foldlM f s = .ok s' → s'.grid = s.grid := by
  intro L
  induction L with
  | nil =>
    intro s s' h
    have h' : Except.ok s = Except.ok s' := h
    injection h' with h'
    rw [← h']
  | cons a L ih =>
    intro s s' h
    rw [List.foldlM_cons] at h
    cases ha : f s a with
    | error e => rw [ha, error_bind] at h; cases h
    | ok s1 =>
      rw [ha, ok_bind] at h
      rw [ih s1 s' h, hf s a s1 ha]

/-- C7: a completed `gameOfLife` run never mutates its input: the source
snapshot held alongside the result buffer is the very input grid, every slot
unchanged, and the returned grid is the separately built buffer. -/
theorem gameOfLife_no_mutation (n m : Nat) (g : Grid) (s' : GolState)
    (h : golLoop n m ⟨g, copyGrid g⟩ = .ok s') :
    s'.grid = g ∧ gameOfLife n m g = .ok s'.nextGrid ∧
      ∀ r c : Nat, entryAt s'.grid r c = entryAt g r c := by
  have hg : s'.grid = g := by
    have := foldlM_grid_eq
      (fun s row => (List.range m).foldlM (fun s col => stepCell n m s row col) s)
      (fun s row s1 hs1 =>
        foldlM_grid_eq (fun s col => stepCell n m s row col)
          (fun s col s2 hs2 => (stepCell_ok_props hs2).1) (List.range m) s s1 hs1)
      (List.range n) ⟨g, copyGrid g⟩ s' h
    exact this
  refine ⟨hg, ?_, ?_⟩
  · unfold gameOfLife
    rw [h]
    rfl
  · intro r c
    rw [hg]

/-- C7 witness: the blinker run returns the horizontal blinker while the
source snapshot is still the vertical blinker. -/
theorem gameOfLife_no_mutation_witness :
    (⟨blinkerV, blinkerH⟩ : GolState).grid = blinkerV ∧
      gameOfLife 3 3 blinkerV = .ok (⟨blinkerV, blinkerH⟩ : GolState).nextGrid ∧
      ∀ r c : Nat, entryAt (⟨blinkerV, blinkerH⟩ : GolState).grid r c =
        entryAt blinkerV r c :=
  gameOfLife_no_mutation 3 3 blinkerV ⟨blinkerV, blinkerH⟩ (by decide)

/-- A defined JS indexed read yields a member of the array. -/
theorem getIdx?_mem {α : Type} {l : List α} {i : Int} {a : α}
    (h : getIdx? l i = some a) : a ∈ l := by
  unfold getIdx? at h
  by_cases hi : 0 ≤ i
  · rw [if_pos hi] at h
    exact List.mem_iff_getElem?.mpr ⟨_, h⟩
  · rw [if_neg hi] at h
    cases h

/-- On an all-dead grid no coordinate reads as alive. -/
theorem aliveAt_all_dead {g : Grid}
    (hdead : ∀ rowArr ∈ g, ∀ cell ∈ rowArr, cell = some 0) (r c : Int) :
    aliveAt g r c = false := by
  unfold aliveAt
  apply decide_eq_false
  intro hcontra
  unfold slotAt at hcontra
  cases hr : getIdx? g r with
  | none => rw [hr] at hcontra; cases hcontra
  | some rowArr =>
    rw [hr] at hcontra
    have h2 : getIdx? rowArr c = some (some 1) := Option.join_eq_some.mp hcontra
    have h3 := hdead rowArr (getIdx?_mem hr) (some 1) (getIdx?_mem h2)
    simp at h3

/-- On an all-dead grid every neighbor count is zero. -/
theorem specNeighborCount_all_dead {n m : Nat} {g : Grid}
    (hdead : ∀ rowArr ∈ g, ∀ cell ∈ rowArr, cell = some 0) (r c : Int) :
    specNeighborCount n m g r c = 0 := by
  unfold specNeighborCount
  apply List.countP_eq_zero.mpr
  intro d _
  rw [aliveAt_all_dead hdead]
  simp

/-- C8: on every all-dead rectangular grid, `gameOfLife` succeeds and
returns an all-dead grid of the same dimensions — no spontaneous life. -/
theorem gameOfLife_all_dead (n m : Nat) (g : Grid) (hR : Rect g n m)
    (hdead : ∀ rowArr ∈ g, ∀ cell ∈ rowArr, cell = some 0) :
    ∃ out, gameOfLife n m g = .ok out ∧ out.length = g.length ∧
      (∀ rowArr ∈ out, rowArr.length = m) ∧
      ∀ rowArr ∈ out, ∀ cell ∈ rowArr, cell = some 0 := by
  have hZ : ZeroOne g := fun rowArr h cell hc => Or.inl (hdead rowArr h cell hc)
  obtain ⟨b', hfold, hbR', hchar1, -⟩ :=
    outerLoopRect hR hZ n 0 (by omega) g hR (fun _ _ _ => rfl)
  refine ⟨b', ?_, by rw [hbR'.1, hR.1], hbR'.2, ?_⟩
  · unfold gameOfLife golLoop
    rw [copyGrid_eq, List.range_eq_range' n, List.range_eq_range' m, hfold]
    rfl
  · intro rowArr hmem cell hcell
    obtain ⟨r, hr⟩ := List.mem_iff_getElem?.mp hmem
    obtain ⟨c, hc⟩ := List.mem_iff_getElem?.mp hcell
    have hrn : r < n := by
      have h0 := (List.getElem?_eq_some.mp hr).1
      rw [hbR'.1] at h0
      exact h0
    have hcm : c < m := by
      have h0 := (List.getElem?_eq_some.mp hc).1
      rw [rect_getElem? hbR' hr] at h0
      exact h0
    have hent : entryAt b' r c = some cell := by
      unfold entryAt
      rw [hr]
      exact hc
    have hval := hchar1 r c (by omega) hrn hcm
    rw [hent, aliveAt_all_dead hdead, specNeighborCount_all_dead hdead,
      lifeRule_false_eq] at hval
    injection hval with hval

/-- C8 witness: the 2×2 all-dead grid stays all dead. -/
theorem gameOfLife_all_dead_witness :
    ∃ out, gameOfLife 2 2 (ofNats [[0, 0], [0, 0]]) = .ok out ∧
      out.length = (ofNats [[0, 0], [0, 0]]).length ∧
      (∀ rowArr ∈ out, rowArr.length = 2) ∧
      ∀ rowArr ∈ out, ∀ cell ∈ rowArr, cell = some 0 :=
  gameOfLife_all_dead 2 2 (ofNats [[0, 0], [0, 0]]) (by decide) (by decide)

set_option maxHeartbeats 2000000 in
/-- C6: on every rectangular grid with at least 2 rows and 2 columns, the
neighbor count of a corner cell evaluates without throwing and counts at
most the 3 in-bounds candidate neighbors. -/
theorem countLiveNeighbors_corner (n m : Nat) (g : Grid) (hR : Rect g n m)
    (hn : 2 ≤ n) (hm : 2 ≤ m) (row col : Nat)
    (hrow : row = 0 ∨ row = n - 1) (hcol : col = 0 ∨ col = m - 1) :
    countLiveNeighbors n m g (row : Int) (col : Int) =
        .ok (specNeighborCount n m g (row : Int) (col : Int)) ∧
      specNeighborCount n m g (row : Int) (col : Int) ≤ 3 := by
  refine ⟨countLiveNeighbors_eq hR _ _, ?_⟩
  have hmono : specNeighborCount n m g (row : Int) (col : Int) ≤
      directions.countP
        (fun d => inFence n m ((row : Int) + d.1) ((col : Int) + d.2)) := by
    unfold specNeighborCount
    apply List.countP_mono_left
    intro d _ hd
    simp only [Bool.and_eq_true] at hd
    exact hd.1
  refine le_trans hmono ?_
  rcases hrow with h1 | h1 <;> rcases hcol with h2 | h2 <;> subst h1 <;> subst h2 <;>
    simp only [directions, List.countP_cons, List.countP_nil, inFence,
      decide_eq_true_eq] <;>
    split_ifs <;> omega

/-- C6 witness: the top-left corner of an all-live 2×2 grid. -/
theorem countLiveNeighbors_corner_witness :
    countLiveNeighbors 2 2 (ofNats [[1, 1], [1, 1]]) 0 0 =
        .ok (specNeighborCount 2 2 (ofNats [[1, 1], [1, 1]]) 0 0) ∧
      specNeighborCount 2 2 (ofNats [[1, 1], [1, 1]]) 0 0 ≤ 3 :=
  countLiveNeighbors_corner 2 2 (ofNats [[1, 1], [1, 1]]) (by decide) (by decide)
    (by decide) 0 0 (Or.inl rfl) (Or.inl rfl)
